import Mathlib

/-!
Verification of the real-time animation and DMX frame-encoding core of
`src/martin-usb-dmx.c`.

The C code is shallowly embedded: machine integers become `Nat` (with explicit
`% 256` where `uint8_t` wrap-around matters), C `float` arithmetic is modelled
by exact rational arithmetic over `ℚ`, the conversion of a non-negative float
to an integer type is modelled by truncation toward zero, and the global
mutable state (the eight `led_map` entries and the `global_*` parameters)
becomes explicit state passing.
-/

/-! ### Constants from the source -/

def FPS : Nat := 10

def LEDS : Nat := 8

def NOTE_START : Nat := 5 * 12

def NOTE_END : Nat := NOTE_START + 26

def SPOT_START : Nat := 0

def SPOT_END : Nat := 20

/-! ### Per-light state (`led_map` entries) -/

/-- One entry of the C `led_map` array: four byte offsets into the 512-channel
universe and four float channel values (modelled as `ℚ`). -/
structure LedState where
  offset_i : Nat
  offset_r : Nat
  offset_g : Nat
  offset_b : Nat
  value_i : ℚ
  value_r : ℚ
  value_g : ℚ
  value_b : ℚ
deriving DecidableEq

/-- The `LED_MAP(offset)` initializer macro: offsets filled in, values
zero-initialized as C statics are. -/
def LED_MAP (offset : Nat) : LedState :=
  { offset_i := offset + 7
    offset_r := offset + 0
    offset_g := offset + 1
    offset_b := offset + 2
    value_i := 0
    value_r := 0
    value_g := 0
    value_b := 0 }

/-- Initial contents of the `led_map[LEDS]` array. -/
def led_map : Fin 8 → LedState :=
  ![LED_MAP 99, LED_MAP 108, LED_MAP 117, LED_MAP 126,
    LED_MAP 135, LED_MAP 144, LED_MAP 153, LED_MAP 162]

/-- `trigger(which, velocity)` from the source.  `which` and `velocity` are
`uint8_t` parameters; `velocity = 127 - velocity` is `uint8_t` arithmetic,
hence the `% 256`.  Lights other than `which` are untouched, and
`which >= LEDS` returns without touching anything. -/
def trigger (which velocity : Nat) (leds : Fin 8 → LedState) : Fin 8 → LedState :=
  if h : which < LEDS then
    let vel : Nat := (127 + 256 - velocity % 256) % 256
    fun j =>
      if j = ⟨which, h⟩ then
        { leds j with
          value_i := (leds j).value_i * (vel : ℚ) / 127
          value_r := 1
          value_g := 0
          value_b := 0 }
      else leds j
  else leds

/-! ### `store` and the spot-channel fill -/

/-- C truncation of a float toward zero when converting to an integer type. -/
def ctrunc (q : ℚ) : ℤ :=
  if 0 ≤ q then ⌊q⌋ else -⌊-q⌋

/-- `store(value, ptr, max)` from the source: clamp `value` into `[0,1]`,
then write `(int)(max * value)`.  The byte written through `ptr` is returned. -/
def store (value : ℚ) (max : ℚ) : ℤ :=
  let v := if value > 1 then (1 : ℚ) else if value < 0 then (0 : ℚ) else value
  ctrunc (max * v)

/-- The spot-fill loop of `usb_write_loop`:
`for (x = SPOT_START; x != SPOT_END; x++) store(global_spot_gain, buffer + x, 255)`,
as a transformation of the universe buffer. -/
def spot_fill (spot_gain : ℚ) (buffer : Nat → ℤ) : Nat → ℤ :=
  fun x => if SPOT_START ≤ x ∧ x < SPOT_END then store spot_gain 255 else buffer x

/-! ### The decay step (`update`) -/

/-- The per-channel decay formula `value += (target - value) / global_decay`. -/
def decay_step (v target decay : ℚ) : ℚ :=
  v + (target - v) / decay

/-- `update(which, i, r, g, b)` from the source, applied to one light of the
`led_map` state with the current `global_decay`. -/
def update (which : Fin 8) (i r g b decay : ℚ)
    (leds : Fin 8 → LedState) : Fin 8 → LedState :=
  fun j =>
    if j = which then
      { leds j with
        value_i := (leds j).value_i + (i - (leds j).value_i) / decay
        value_r := (leds j).value_r + (r - (leds j).value_r) / decay
        value_g := (leds j).value_g + (g - (leds j).value_g) / decay
        value_b := (leds j).value_b + (b - (leds j).value_b) / decay }
    else leds j

/-- Iterating the scalar decay step with a constant target. -/
def decayIter (decay target x0 : ℚ) : Nat → ℚ
  | 0 => x0
  | n + 1 => decay_step (decayIter decay target x0 n) target decay

/-! ### The frame encoder (`convert`) -/

/-- The outer loop of `convert`.  The loop counter `c` runs to 512; each
iteration emits the 2-byte little-endian header `c & 0xFF, c >> 8` and then
up to 62 channel bytes (`x != 62 && c != 512`).  The `fuel` argument bounds
the number of remaining loop iterations; since every iteration with `c < 512`
advances `c` by at least one, `fuel = 512` is always enough. -/
def convertGo : Nat → Nat → List Nat → List Nat
  | 0, _, _ => []
  | fuel + 1, c, src =>
    if c = 512 then []
    else
      (c % 256) :: (c / 256) ::
        (src.take (min 62 (512 - c)) ++
          convertGo fuel (c + min 62 (512 - c)) (src.drop (min 62 (512 - c))))

/-- `convert(from, to)` from the source, as a function from the 512-byte
universe to the 530-byte wire frame. -/
def convert (src : List Nat) : List Nat :=
  convertGo 512 0 src

/-- Modelled from the spec: the decoder for the wire format of §4.4, which is
not part of the repository (the physical fixture decodes the frame).  It
parses chunks of a 2-byte little-endian first-channel index followed by
`min 62 (512 - index)` raw channel bytes, checking that the index matches the
running channel counter, and reassembles the 512 channel values. -/
def decodeGo : Nat → Nat → List Nat → Option (List Nat)
  | _, c, [] => if c = 512 then some [] else none
  | _, _, [_] => none
  | 0, _, _ :: _ :: _ => none
  | fuel + 1, c, lo :: hi :: rest =>
    if lo + 256 * hi = c ∧ c < 512 then
      if min 62 (512 - c) ≤ rest.length then
        (decodeGo fuel (c + min 62 (512 - c)) (rest.drop (min 62 (512 - c)))).map
          (fun tail => rest.take (min 62 (512 - c)) ++ tail)
      else none
    else none

/-- Modelled from the spec: decode a whole wire frame. -/
def decode (frame : List Nat) : Option (List Nat) :=
  decodeGo 512 0 frame

/-! ### Global parameters and the event dispatcher -/

/-- The mutable globals of the source: `global_decay`, `global_led_gain`,
`global_spot_gain`, `global_pixel_speed` and the sampler's `random_value`. -/
structure Globals where
  global_decay : ℚ
  global_led_gain : ℚ
  global_spot_gain : ℚ
  global_pixel_speed : ℚ
  random_value : Nat
deriving DecidableEq

/-- Static initializers of the globals in the source
(`global_decay = 3.0`, the rest zero). -/
def initGlobals : Globals :=
  { global_decay := 3
    global_led_gain := 0
    global_spot_gain := 0
    global_pixel_speed := 0
    random_value := 0 }

/-- Conversion of a non-negative float to a C unsigned integer (truncation). -/
def floorNat (q : ℚ) : Nat :=
  (⌊q⌋).toNat

/-- `update_pixel_speed()` from the source.  The two `arc4random()` draws are
passed in as `r1` and `r2`; `width`, `height` and `image_size` come from the
picture resource.  Returns the new `random_value`:
`4 * ((w_rand + h_rand * width) % (image_size / 4))` where
`w_rand = (r1 % width) * pixel_speed` and `h_rand = (r2 % height) * pixel_speed`
are float products converted back to `unsigned`. -/
def update_pixel_speed (width height image_size r1 r2 : Nat)
    (pixel_speed : ℚ) : Nat :=
  let w_rand : Nat := floorNat (((r1 % width : Nat) : ℚ) * pixel_speed)
  let h_rand : Nat := floorNat (((r2 % height : Nat) : ℚ) * pixel_speed)
  4 * ((w_rand + h_rand * width) % (image_size / 4))

/-- The `SND_SEQ_EVENT_CONTROLLER` branch of `alsa_read_loop`: parameter ids
114, 117, 116 and 113 update `global_led_gain`, `global_spot_gain`,
`global_pixel_speed` (with an immediate `update_pixel_speed()` call reading
the freshly written speed) and `global_decay`; other ids are ignored. -/
def controlEvent (width height image_size : Nat) (param value r1 r2 : Nat)
    (g : Globals) : Globals :=
  match param with
  | 114 => { g with global_led_gain := (value : ℚ) / 127 }
  | 117 => { g with global_spot_gain := (value : ℚ) / 127 }
  | 116 =>
    let g1 := { g with global_pixel_speed := (value : ℚ) / 127 }
    { g1 with random_value :=
        update_pixel_speed width height image_size r1 r2 g1.global_pixel_speed }
  | 113 => { g with global_decay := (value : ℚ) + 1 }
  | _ => g

/-- A sequence of controller events applied in order
(`param`, `value`, and the two random draws for a possible recompute). -/
def applyControlEvents (width height image_size : Nat)
    (evs : List (Nat × Nat × Nat × Nat)) (g : Globals) : Globals :=
  evs.foldl
    (fun st e => controlEvent width height image_size e.1 e.2.1 e.2.2.1 e.2.2.2 st) g

/-! ### The note-trigger map and the note-on dispatch -/

/-- The `midi_map[26]` table, entry for entry from the source. -/
def midi_map : List Nat :=
  [0, 0, 1 + 0 + 0x80, 1 + 2 + 0x80, 1 + 1 + 0x80,
   1 + 0, 1 + 4, 1 + 1, 1 + 5, 1 + 2, 1 + 6, 1 + 3,
   0, 1 + 7, 1 + 0 + 0x80, 1 + 2 + 0x80, 1 + 1 + 0x80,
   1 + 0, 1 + 4, 1 + 1, 1 + 5, 1 + 2, 1 + 6, 1 + 3,
   0, 1 + 7]

/-- The `SND_SEQ_EVENT_NOTEON` branch of `alsa_read_loop`: events on a
non-zero channel, with a note outside `[NOTE_START, NOTE_END)`, or whose
`midi_map` entry is 0 ("dead") are dropped; otherwise
`trigger(midi_map[note - NOTE_START] - 1, velocity)` runs. -/
def noteOn (channel note velocity : Nat) (leds : Fin 8 → LedState) :
    Fin 8 → LedState :=
  if channel ≠ 0 ∨ note < NOTE_START ∨ NOTE_END ≤ note ∨
      midi_map.getD (note - NOTE_START) 0 = 0 then
    leds
  else
    trigger (midi_map.getD (note - NOTE_START) 0 - 1) velocity leds

/-! ### The write loop's failure state machine -/

/-- The failure-tracking state of `usb_write_loop`: the `uint8_t timeout`
counter (initially 3) and whether the loop has hit `break`. -/
structure WriteLoopState where
  timeout : Nat
  halted : Bool
deriving DecidableEq

/-- `uint8_t timeout = 3` and the loop still running. -/
def initWriteLoop : WriteLoopState :=
  { timeout := 3, halted := false }

/-- One iteration's failure handling: on a failed `usb_bulk_write`
(`ok = false`), `if (timeout-- == 0) break;` tests the old value and then
decrements; on success `timeout = 3`.  A halted loop stays halted. -/
def write_attempt (ok : Bool) (s : WriteLoopState) : WriteLoopState :=
  if s.halted then s
  else if ok then { timeout := 3, halted := false }
  else if s.timeout = 0 then { s with halted := true }
  else { timeout := s.timeout - 1, halted := false }

/-- Run the failure state machine over a list of per-iteration send outcomes
(`true` = the bulk write succeeded). -/
def runWriteLoop (evs : List Bool) : WriteLoopState :=
  evs.foldl (fun st e => write_attempt e st) initWriteLoop

/-- The failure state machine started from an arbitrary state. -/
def runWriteFrom (s : WriteLoopState) (evs : List Bool) : WriteLoopState :=
  evs.foldl (fun st e => write_attempt e st) s

/-! ### The periodic jump-size recomputation schedule -/

/-- The tail of each `usb_write_loop` iteration:
`if (++counter == 30 * FPS) { counter = 0; update_pixel_speed(); }`.
Returns the new counter value and whether the recomputation ran. -/
def write_tick_counter (counter : Nat) : Nat × Bool :=
  if counter + 1 = 30 * FPS then (0, true) else (counter + 1, false)

/-- The value of `counter` after `n` loop iterations, starting from 0. -/
def counterAfter : Nat → Nat
  | 0 => 0
  | n + 1 => (write_tick_counter (counterAfter n)).1

/-- Whether the periodic `update_pixel_speed()` call runs on iteration `n`
(iterations numbered from 1). -/
def recomputeOnTick : Nat → Bool
  | 0 => false
  | n + 1 => (write_tick_counter (counterAfter n)).2

/-! ## Theorems -/

/-- Helper: length of the encoder output, parametric in the starting channel
counter.  The number of chunks still to emit from counter `c` is
`(512 - c + 61) / 62`. -/
theorem convertGo_length : ∀ (fuel c : Nat) (src : List Nat), c ≤ 512 → 512 - c ≤ fuel →
    src.length = 512 - c →
    (convertGo fuel c src).length = (512 - c) + 2 * ((512 - c + 61) / 62) := by
  intro fuel
  induction fuel with
  | zero =>
    intro c src hc hfuel hlen
    have hc2 : c = 512 := by omega
    subst hc2
    simp [convertGo]
  | succ n ih =>
    intro c src hc hfuel hlen
    by_cases h512 : c = 512
    · subst h512
      simp [convertGo]
    · have hlt : c < 512 := by omega
      have hrec := ih (c + min 62 (512 - c)) (src.drop (min 62 (512 - c)))
        (by omega) (by omega) (by simp [hlen]; omega)
      rw [convertGo, if_neg h512]
      simp [List.length_append, List.length_take, hlen, hrec]
      omega

/-- Helper: decoding inverts encoding from any intermediate channel counter. -/
theorem convertGo_decode : ∀ (fuel c : Nat) (src : List Nat), c ≤ 512 → 512 - c ≤ fuel →
    src.length = 512 - c →
    decodeGo fuel c (convertGo fuel c src) = some src := by
  intro fuel
  induction fuel with
  | zero =>
    intro c src hc hfuel hlen
    have hc2 : c = 512 := by omega
    subst hc2
    have hnil : src = [] := List.eq_nil_of_length_eq_zero (by omega)
    subst hnil
    simp [convertGo, decodeGo]
  | succ n ih =>
    intro c src hc hfuel hlen
    by_cases h512 : c = 512
    · subst h512
      have hnil : src = [] := List.eq_nil_of_length_eq_zero (by omega)
      subst hnil
      simp [convertGo, decodeGo]
    · have hlt : c < 512 := by omega
      have hk1 : 1 ≤ min 62 (512 - c) := by omega
      have hkle : min 62 (512 - c) ≤ src.length := by omega
      have htklen : (src.take (min 62 (512 - c))).length = min 62 (512 - c) := by
        simp [List.length_take]; omega
      have hrec := ih (c + min 62 (512 - c)) (src.drop (min 62 (512 - c)))
        (by omega) (by omega) (by simp [hlen]; omega)
      rw [convertGo, if_neg h512, decodeGo]
      rw [if_pos (show c % 256 + 256 * (c / 256) = c ∧ c < 512 from ⟨by omega, hlt⟩)]
      rw [if_pos (show min 62 (512 - c) ≤
          (src.take (min 62 (512 - c)) ++
            convertGo n (c + min 62 (512 - c)) (src.drop (min 62 (512 - c)))).length from by
        simp [List.length_append, htklen])]
      rw [List.drop_left' htklen, List.take_left' htklen, hrec]
      simp [List.take_append_drop]

/-- Helper: the encoder output written out chunk by chunk, exposing the chunk
boundaries 0, 62, 124, 186, 248, 310, 372, 434, 496 with their little-endian
2-byte headers and the final 16-channel chunk. -/
theorem convert_chunks (src : List Nat) :
    convert src =
      0 :: 0 :: (src.take 62 ++
      62 :: 0 :: ((src.drop 62).take 62 ++
      124 :: 0 :: ((src.drop 124).take 62 ++
      186 :: 0 :: ((src.drop 186).take 62 ++
      248 :: 0 :: ((src.drop 248).take 62 ++
      54 :: 1 :: ((src.drop 310).take 62 ++
      116 :: 1 :: ((src.drop 372).take 62 ++
      178 :: 1 :: ((src.drop 434).take 62 ++
      240 :: 1 :: (src.drop 496).take 16)))))))) := by
  simp [convert, convertGo, List.drop_drop]

/-- Claim C1: the frame encoder is a pure total function taking a 512-byte
universe to a 530-byte wire frame made of chunks of a 2-byte little-endian
first-channel index followed by up to 62 raw channel bytes, with chunk
boundaries at channel offsets 0, 62, ..., 496 and a final 16-channel chunk,
and decoding the produced frame reconstructs the original universe exactly. -/
theorem convert_roundtrip_530 (src : List Nat) (hlen : src.length = 512) :
    (convert src).length = 530 ∧
    decode (convert src) = some src ∧
    convert src = 0 :: 0 :: (src.take 62 ++
      62 :: 0 :: ((src.drop 62).take 62 ++
      124 :: 0 :: ((src.drop 124).take 62 ++
      186 :: 0 :: ((src.drop 186).take 62 ++
      248 :: 0 :: ((src.drop 248).take 62 ++
      54 :: 1 :: ((src.drop 310).take 62 ++
      116 :: 1 :: ((src.drop 372).take 62 ++
      178 :: 1 :: ((src.drop 434).take 62 ++
      240 :: 1 :: (src.drop 496).take 16)))))))) := by
  refine ⟨?_, ?_, convert_chunks src⟩
  · rw [convert, convertGo_length 512 0 src (by omega) (by omega) (by omega)]
  · exact convertGo_decode 512 0 src (by omega) (by omega) (by omega)

/-- Witness for C1 at the all-zero universe. -/
theorem convert_roundtrip_530_witness :
    (List.replicate 512 (0 : Nat)).length = 512 ∧
    decode (convert (List.replicate 512 0)) = some (List.replicate 512 0) :=
  ⟨by rw [List.length_replicate],
    (convert_roundtrip_530 (List.replicate 512 0) (by rw [List.length_replicate])).2.1⟩

/-- Helper: a halted write loop ignores all further events. -/
theorem runWriteFrom_absorb : ∀ (evs : List Bool) (s : WriteLoopState), s.halted = true →
    runWriteFrom s evs = s := by
  intro evs
  induction evs with
  | nil => intro s h; rfl
  | cons e rest ih =>
    intro s h
    have hstep : write_attempt e s = s := by simp [write_attempt, h]
    simp only [runWriteFrom, List.foldl_cons, hstep]
    exact ih s h

/-- Helper: starting from timeout counter `t`, the write loop ends halted
exactly when the outcome sequence begins with `t + 1` straight failures or
contains, right after some success, four straight failures. -/
theorem runWriteFrom_halts_iff : ∀ (evs : List Bool) (t : Nat),
    ((runWriteFrom ⟨t, false⟩ evs).halted = true ↔
      (∃ l₂, evs = List.replicate (t + 1) false ++ l₂) ∨
      (∃ l₁ l₂, evs = l₁ ++ (true :: ([false, false, false, false] ++ l₂)))) := by
  intro evs
  induction evs with
  | nil =>
    intro t
    simp [runWriteFrom, List.replicate_succ]
  | cons e rest ih =>
    intro t
    cases e with
    | true =>
      have hstep : write_attempt true ⟨t, false⟩ = ⟨3, false⟩ := by simp [write_attempt]
      simp only [runWriteFrom, List.foldl_cons, hstep]
      rw [show (List.foldl (fun st e => write_attempt e st) ⟨3, false⟩ rest) =
          runWriteFrom ⟨3, false⟩ rest from rfl, ih 3]
      constructor
      · rintro (⟨l₂, rfl⟩ | ⟨l₁, l₂, rfl⟩)
        · exact Or.inr ⟨[], l₂, by simp [List.replicate]⟩
        · exact Or.inr ⟨true :: l₁, l₂, by simp⟩
      · rintro (⟨l₂, h⟩ | ⟨l₁, l₂, h⟩)
        · rw [List.replicate_succ] at h
          simp at h
        · cases l₁ with
          | nil =>
            simp at h
            exact Or.inl ⟨l₂, by simp [List.replicate, h]⟩
          | cons a l₁ =>
            simp at h
            exact Or.inr ⟨l₁, l₂, h.2⟩
    | false =>
      cases t with
      | zero =>
        have hstep : write_attempt false ⟨0, false⟩ = ⟨0, true⟩ := by simp [write_attempt]
        simp only [runWriteFrom, List.foldl_cons, hstep]
        rw [show (List.foldl (fun st e => write_attempt e st) ⟨0, true⟩ rest) =
            runWriteFrom ⟨0, true⟩ rest from rfl,
          runWriteFrom_absorb rest ⟨0, true⟩ rfl]
        simp only [true_iff, iff_true]
        exact Or.inl ⟨rest, by simp [List.replicate]⟩
      | succ t =>
        have hstep : write_attempt false ⟨t + 1, false⟩ = ⟨t, false⟩ := by
          simp [write_attempt]
        simp only [runWriteFrom, List.foldl_cons, hstep]
        rw [show (List.foldl (fun st e => write_attempt e st) ⟨t, false⟩ rest) =
            runWriteFrom ⟨t, false⟩ rest from rfl, ih t]
        constructor
        · rintro (⟨l₂, rfl⟩ | ⟨l₁, l₂, rfl⟩)
          · exact Or.inl ⟨l₂, by simp [List.replicate_succ]⟩
          · exact Or.inr ⟨false :: l₁, l₂, by simp⟩
        · rintro (⟨l₂, h⟩ | ⟨l₁, l₂, h⟩)
          · rw [List.replicate_succ] at h
            simp at h
            exact Or.inl ⟨l₂, h⟩
          · cases l₁ with
            | nil => simp at h
            | cons a l₁ =>
              simp at h
              exact Or.inr ⟨l₁, l₂, h.2⟩

/-- Helper: any occurrence of four straight failures can be placed either at
the very front or directly after a success. -/
theorem run4_decomp : ∀ (l₁ evs l₂ : List Bool),
    evs = l₁ ++ ([false, false, false, false] ++ l₂) →
    (∃ m₂, evs = [false, false, false, false] ++ m₂) ∨
    (∃ m₁ m₂, evs = m₁ ++ (true :: ([false, false, false, false] ++ m₂))) := by
  intro l₁
  induction l₁ with
  | nil =>
    intro evs l₂ h
    exact Or.inl ⟨l₂, by simpa using h⟩
  | cons a l₁ ih =>
    intro evs l₂ h
    subst h
    rcases ih (l₁ ++ ([false, false, false, false] ++ l₂)) l₂ rfl with
      ⟨m₂, htail⟩ | ⟨m₁, m₂, htail⟩
    · cases a with
      | true =>
        exact Or.inr ⟨[], m₂, by rw [List.cons_append, htail]; simp⟩
      | false =>
        exact Or.inl ⟨false :: m₂, by rw [List.cons_append, htail]; simp⟩
    · cases a with
      | true =>
        exact Or.inr ⟨true :: m₁, m₂, by rw [List.cons_append, htail]; simp⟩
      | false =>
        exact Or.inr ⟨false :: m₁, m₂, by rw [List.cons_append, htail]; simp⟩

/-- Counterexample to claim C2 as stated: after exactly three consecutive
transmission failures the loop has not halted (its `timeout` has merely
reached 0); only a fourth consecutive failure halts it. -/
theorem usb_write_three_failures_insufficient :
    (runWriteLoop [false, false, false]).halted = false ∧
    (runWriteLoop [false, false, false, false]).halted = true := by decide

/-- Claim C2 (amended): the render loop halts permanently exactly when the
outbound send fails four consecutive times (the `uint8_t timeout` counter
starts at 3 and `if (timeout-- == 0) break` tests before decrementing); any
successful transmission resets the state to the initial one (counter 3, i.e.
zero consecutive failures), and a halted loop stays halted. -/
theorem usb_write_halts_after_four_failures (evs : List Bool) :
    ((runWriteLoop evs).halted = true ↔
      ∃ l₁ l₂, evs = l₁ ++ ([false, false, false, false] ++ l₂)) ∧
    (∀ s : WriteLoopState, s.halted = false → write_attempt true s = initWriteLoop) ∧
    (∀ (s : WriteLoopState) (e : Bool), s.halted = true → write_attempt e s = s) := by
  refine ⟨?_, ?_, ?_⟩
  · rw [show runWriteLoop evs = runWriteFrom ⟨3, false⟩ evs from rfl,
      runWriteFrom_halts_iff evs 3]
    constructor
    · rintro (⟨l₂, rfl⟩ | ⟨l₁, l₂, rfl⟩)
      · exact ⟨[], l₂, rfl⟩
      · exact ⟨l₁ ++ [true], l₂, by simp⟩
    · rintro ⟨l₁, l₂, h⟩
      rcases run4_decomp l₁ evs l₂ h with ⟨m₂, hm⟩ | ⟨m₁, m₂, hm⟩
      · exact Or.inl ⟨m₂, hm⟩
      · exact Or.inr ⟨m₁, m₂, hm⟩
  · intro s hs
    simp [write_attempt, hs, initWriteLoop]
  · intro s e hs
    simp [write_attempt, hs]

/-- Witness for C2's amended theorem: a successful send from the initial
running state resets the machine to the initial state. -/
theorem usb_write_halts_after_four_failures_witness :
    initWriteLoop.halted = false ∧ write_attempt true initWriteLoop = initWriteLoop :=
  ⟨rfl, (usb_write_halts_after_four_failures []).2.1 initWriteLoop rfl⟩

/-- Helper: one decay step scales the distance to the target by
`(k - 1) / k`. -/
theorem decay_step_contract (k t y : ℚ) (hk : k ≠ 0) :
    t - decay_step y t k = (t - y) * ((k - 1) / k) := by
  unfold decay_step
  field_simp
  ring

/-- Helper: the distance to the target after `n` decay steps. -/
theorem decayIter_dist (k t x0 : ℚ) (hk : k ≠ 0) :
    ∀ n, t - decayIter k t x0 n = (t - x0) * ((k - 1) / k) ^ n := by
  intro n
  induction n with
  | zero => simp [decayIter]
  | succ n ih =>
    rw [decayIter, decay_step_contract k t _ hk, ih, pow_succ]
    ring

/-- Claim C3: `update` applies `value += (target - value) / decay` to every
channel of the selected light; with `decay_constant = 1` one step lands
exactly on the target; with `decay_constant = k > 1` the iterated step keeps
the distance-to-target formula `(t - x0) * ((k-1)/k) ^ n`, approaches the
target monotonically from either side without ever overshooting, and
converges to the target. -/
theorem update_decay_behaviour (k t x0 : ℚ) (hk : 1 < k) :
    (∀ (which : Fin 8) (i r g b d : ℚ) (leds : Fin 8 → LedState),
      (update which i r g b d leds which).value_i =
          (leds which).value_i + (i - (leds which).value_i) / d ∧
      (update which i r g b d leds which).value_r =
          (leds which).value_r + (r - (leds which).value_r) / d ∧
      (update which i r g b d leds which).value_g =
          (leds which).value_g + (g - (leds which).value_g) / d ∧
      (update which i r g b d leds which).value_b =
          (leds which).value_b + (b - (leds which).value_b) / d) ∧
    (∀ v targ : ℚ, decay_step v targ 1 = targ) ∧
    (∀ n, t - decayIter k t x0 n = (t - x0) * ((k - 1) / k) ^ n) ∧
    (x0 ≤ t → ∀ n, decayIter k t x0 n ≤ decayIter k t x0 (n + 1) ∧
        decayIter k t x0 (n + 1) ≤ t) ∧
    (t ≤ x0 → ∀ n, decayIter k t x0 (n + 1) ≤ decayIter k t x0 n ∧
        t ≤ decayIter k t x0 (n + 1)) ∧
    (∀ ε : ℚ, 0 < ε → ∃ N, ∀ n, N ≤ n → |t - decayIter k t x0 n| < ε) := by
  have hk0 : (0 : ℚ) < k := lt_trans zero_lt_one hk
  have hkne : k ≠ 0 := ne_of_gt hk0
  have hr0 : (0 : ℚ) ≤ (k - 1) / k := div_nonneg (by linarith) hk0.le
  have hr1 : (k - 1) / k < 1 := (div_lt_one hk0).2 (by linarith)
  have hdist := decayIter_dist k t x0 hkne
  refine ⟨?_, ?_, hdist, ?_, ?_, ?_⟩
  · intro which i r g b d leds
    refine ⟨?_, ?_, ?_, ?_⟩ <;> simp [update]
  · intro v targ
    simp [decay_step]
  · intro hx0 n
    have h1 : 0 ≤ t - decayIter k t x0 n := by
      rw [hdist n]
      exact mul_nonneg (by linarith) (pow_nonneg hr0 n)
    have h2 : 0 ≤ t - decayIter k t x0 (n + 1) := by
      rw [hdist (n + 1)]
      exact mul_nonneg (by linarith) (pow_nonneg hr0 (n + 1))
    constructor
    · have hstep : decayIter k t x0 (n + 1) =
          decayIter k t x0 n + (t - decayIter k t x0 n) / k := rfl
      rw [hstep]
      have hq : 0 ≤ (t - decayIter k t x0 n) / k := div_nonneg h1 hk0.le
      linarith
    · linarith
  · intro hx0 n
    have h1 : t - decayIter k t x0 n ≤ 0 := by
      rw [hdist n]
      exact mul_nonpos_of_nonpos_of_nonneg (by linarith) (pow_nonneg hr0 n)
    have h2 : t - decayIter k t x0 (n + 1) ≤ 0 := by
      rw [hdist (n + 1)]
      exact mul_nonpos_of_nonpos_of_nonneg (by linarith) (pow_nonneg hr0 (n + 1))
    constructor
    · have hstep : decayIter k t x0 (n + 1) =
          decayIter k t x0 n + (t - decayIter k t x0 n) / k := rfl
      rw [hstep]
      have hq : (t - decayIter k t x0 n) / k ≤ 0 :=
        div_nonpos_of_nonpos_of_nonneg h1 hk0.le
      linarith
    · linarith
  · intro ε hε
    by_cases hD : t - x0 = 0
    · refine ⟨0, fun n _ => ?_⟩
      rw [hdist n, hD]
      simpa using hε
    · have hDpos : 0 < |t - x0| := abs_pos.2 hD
      obtain ⟨N, hN⟩ := exists_pow_lt_of_lt_one (div_pos hε hDpos) hr1
      refine ⟨N, fun n hn => ?_⟩
      have habs : |t - decayIter k t x0 n| = |t - x0| * ((k - 1) / k) ^ n := by
        rw [hdist n, abs_mul, abs_pow, abs_of_nonneg hr0]
      rw [habs]
      have hpow : ((k - 1) / k) ^ n ≤ ((k - 1) / k) ^ N :=
        pow_le_pow_of_le_one hr0 hr1.le hn
      have hlt : ((k - 1) / k) ^ N * |t - x0| < ε := (lt_div_iff₀ hDpos).1 hN
      calc |t - x0| * ((k - 1) / k) ^ n
          ≤ |t - x0| * ((k - 1) / k) ^ N := by
            exact mul_le_mul_of_nonneg_left hpow (abs_nonneg _)
        _ = ((k - 1) / k) ^ N * |t - x0| := by ring
        _ < ε := hlt

/-- Witness for C3 at `k = 2`, `target = 1`, `x0 = 0`: after one step the
distance formula gives `1/2`. -/
theorem update_decay_behaviour_witness :
    (1 : ℚ) < 2 ∧ (1 : ℚ) - decayIter 2 1 0 1 = ((1 : ℚ) - 0) * ((2 - 1) / 2) ^ 1 :=
  ⟨by norm_num, (update_decay_behaviour 2 1 0 (by norm_num)).2.2.1 1⟩

/-- Claim C4: for a light index below `LEDS` and a raw magnitude `m ≤ 127`,
`trigger` forces the light's color to `(red, green, blue) = (1, 0, 0)`
regardless of prior state, multiplies its intensity by `1 - m / 127`, and
leaves every other light unchanged. -/
theorem trigger_flash_red (which m : Nat) (leds : Fin 8 → LedState)
    (hw : which < LEDS) (hm : m ≤ 127) :
    ((trigger which m leds) ⟨which, hw⟩).value_r = 1 ∧
    ((trigger which m leds) ⟨which, hw⟩).value_g = 0 ∧
    ((trigger which m leds) ⟨which, hw⟩).value_b = 0 ∧
    ((trigger which m leds) ⟨which, hw⟩).value_i =
      (leds ⟨which, hw⟩).value_i * (1 - (m : ℚ) / 127) ∧
    (∀ j : Fin 8, j ≠ ⟨which, hw⟩ → trigger which m leds j = leds j) := by
  have hvel : (127 + 256 - m % 256) % 256 = 127 - m := by omega
  unfold trigger
  rw [dif_pos hw]
  simp only [hvel, eq_self_iff_true, if_true]
  refine ⟨trivial, trivial, trivial, ?_, ?_⟩
  · have hcast : ((127 - m : Nat) : ℚ) = 127 - (m : ℚ) := by
      push_cast [hm]
      ring
    rw [hcast]
    ring
  · intro j hj
    rw [if_neg hj]

/-- Witness for C4: triggering light 3 at magnitude 0 paints it red. -/
theorem trigger_flash_red_witness :
    3 < LEDS ∧ (0 : Nat) ≤ 127 ∧
    ((trigger 3 0 led_map) ⟨3, by decide⟩).value_r = 1 :=
  ⟨by decide, by decide, (trigger_flash_red 3 0 led_map (by decide) (by decide)).1⟩

/-- Claim C5: `store` clamps to `[0,1]` before scaling by `max`: with
`max = 255`, input `-5` gives byte 0, input `2` gives byte 255, input `1/2`
gives byte 127 and input `0.4` gives byte 102; the render loop's spot fill
therefore writes byte 102 to every channel in `[SPOT_START, SPOT_END)` (that
is, channels 0..19) when `spot_gain = 0.4`. -/
theorem store_clamps_and_spot_fill :
    store (-5) 255 = 0 ∧ store 2 255 = 255 ∧ store (1/2) 255 = 127 ∧
    store (0.4) 255 = 102 ∧
    (∀ (buffer : Nat → ℤ) (x : Nat), SPOT_START ≤ x → x < SPOT_END →
      spot_fill (0.4) buffer x = 102) := by
  refine ⟨by norm_num [store, ctrunc], by norm_num [store, ctrunc],
    by norm_num [store, ctrunc], by norm_num [store, ctrunc], ?_⟩
  intro buffer x h1 h2
  rw [spot_fill]
  rw [if_pos ⟨h1, h2⟩]
  norm_num [store, ctrunc]

/-- Witness for C5: channel 5 of an all-zero buffer reads 102 after the spot
fill with gain 0.4. -/
theorem store_clamps_and_spot_fill_witness :
    SPOT_START ≤ 5 ∧ 5 < SPOT_END ∧ spot_fill (0.4) (fun _ => 0) 5 = 102 :=
  ⟨by decide, by decide,
    store_clamps_and_spot_fill.2.2.2.2 (fun _ => 0) 5 (by decide) (by decide)⟩

/-- Claim C6: the note-trigger map covers exactly 26 consecutive note
identifiers (`NOTE_START` to `NOTE_END - 1`), and a note-on event whose note
lies outside that range or whose map entry is 0 ("dead") leaves every
light's state unchanged. -/
theorem note_map_dispatch (channel note velocity : Nat) (leds : Fin 8 → LedState)
    (h : note < NOTE_START ∨ NOTE_END ≤ note ∨ midi_map.getD (note - NOTE_START) 0 = 0) :
    midi_map.length = 26 ∧ NOTE_END - NOTE_START = 26 ∧
      noteOn channel note velocity leds = leds := by
  refine ⟨by decide, by decide, ?_⟩
  unfold noteOn
  rcases h with h | h | h
  · rw [if_pos (Or.inr (Or.inl h))]
  · rw [if_pos (Or.inr (Or.inr (Or.inl h)))]
  · rw [if_pos (Or.inr (Or.inr (Or.inr h)))]

/-- Witness for C6: note 72 (the dead `C1` entry, index 12 of the map) leaves
the initial light state untouched. -/
theorem note_map_dispatch_witness :
    (72 < NOTE_START ∨ NOTE_END ≤ 72 ∨ midi_map.getD (72 - NOTE_START) 0 = 0) ∧
    noteOn 0 72 100 led_map = led_map :=
  ⟨by decide, (note_map_dispatch 0 72 100 led_map (by decide)).2.2⟩

/-- Helper: the loop counter equals the tick number modulo `30 * FPS`. -/
theorem counterAfter_mod : ∀ n, counterAfter n = n % (30 * FPS) := by
  intro n
  induction n with
  | zero => rfl
  | succ n ih =>
    rw [counterAfter, write_tick_counter, ih]
    rw [show 30 * FPS = 300 from rfl]
    by_cases h : n % 300 + 1 = 300
    · rw [if_pos h]
      show 0 = (n + 1) % 300
      omega
    · rw [if_neg h]
      show n % 300 + 1 = (n + 1) % 300
      omega

/-- Helper: the periodic recomputation runs exactly on the ticks that are
positive multiples of `30 * FPS`. -/
theorem recomputeOnTick_iff : ∀ n, recomputeOnTick n = true ↔ (n ≠ 0 ∧ n % (30 * FPS) = 0) := by
  intro n
  cases n with
  | zero => simp [recomputeOnTick]
  | succ m =>
    rw [recomputeOnTick, write_tick_counter, counterAfter_mod m]
    rw [show 30 * FPS = 300 from rfl]
    by_cases h : m % 300 + 1 = 300
    · rw [if_pos h]
      show true = true ↔ (m + 1 ≠ 0 ∧ (m + 1) % 300 = 0)
      constructor
      · intro
        omega
      · intro
        rfl
    · rw [if_neg h]
      show false = true ↔ (m + 1 ≠ 0 ∧ (m + 1) % 300 = 0)
      constructor
      · intro hx
        cases hx
      · intro hx
        omega

set_option maxRecDepth 40000 in
/-- Counterexample to claim C7 as stated: the recomputation does run every
`30 * FPS` ticks, but at `FPS` frames per second that interval is 30 seconds
of render time, not 3 (and the tick that is 3 seconds in does not
recompute). -/
theorem periodic_recompute_is_30s_not_3s :
    recomputeOnTick (30 * FPS) = true ∧
    recomputeOnTick (3 * FPS) = false ∧
    ((30 * FPS : Nat) : ℚ) / ((FPS : Nat) : ℚ) ≠ 3 := by
  refine ⟨by decide, by decide, by norm_num [FPS]⟩

/-- Claim C7 (amended): the render loop recomputes the jump size exactly once
every `30 * FPS` ticks of the periodic schedule and on no other tick, which
at `FPS` frames per second amounts to every 30 seconds of render time. -/
theorem periodic_recompute_schedule :
    (∀ n, counterAfter n = n % (30 * FPS)) ∧
    (∀ n, recomputeOnTick n = true ↔ (n ≠ 0 ∧ n % (30 * FPS) = 0)) ∧
    ((30 * FPS : Nat) : ℚ) / ((FPS : Nat) : ℚ) = 30 := by
  refine ⟨counterAfter_mod, recomputeOnTick_iff, by norm_num [FPS]⟩

/-- Claim C8: a controller event with the pixel-speed parameter id (116)
updates `global_pixel_speed` to `value / 127` and, in the same event
handling, immediately recomputes `random_value` from the freshly written
speed: the two random draws are reduced modulo `width` and `height`, each
scaled by the new speed, combined as `(w + h * width) mod (width * height)`
(the pixel count, since `image_size = width * height * 4`), and the jump
size is 4 times that index. -/
theorem pixel_speed_event_immediate (width height image_size value r1 r2 : Nat)
    (g : Globals) (himg : image_size = width * height * 4) :
    (controlEvent width height image_size 116 value r1 r2 g).global_pixel_speed =
      (value : ℚ) / 127 ∧
    (controlEvent width height image_size 116 value r1 r2 g).random_value =
      4 * ((floorNat (((r1 % width : Nat) : ℚ) * ((value : ℚ) / 127)) +
            floorNat (((r2 % height : Nat) : ℚ) * ((value : ℚ) / 127)) * width) %
          (width * height)) := by
  constructor
  · rfl
  · show update_pixel_speed width height image_size r1 r2 ((value : ℚ) / 127) = _
    rw [update_pixel_speed, himg]
    have h4 : width * height * 4 / 4 = width * height := by omega
    rw [h4]

/-- Witness for C8 on a 4x2 image at full speed. -/
theorem pixel_speed_event_immediate_witness :
    (32 : Nat) = 4 * 2 * 4 ∧
    (controlEvent 4 2 32 116 127 5 3 initGlobals).global_pixel_speed =
      ((127 : Nat) : ℚ) / 127 ∧
    (controlEvent 4 2 32 116 127 5 3 initGlobals).random_value =
      4 * ((floorNat (((5 % 4 : Nat) : ℚ) * (((127 : Nat) : ℚ) / 127)) +
            floorNat (((3 % 2 : Nat) : ℚ) * (((127 : Nat) : ℚ) / 127)) * 4) %
          (4 * 2)) :=
  ⟨by norm_num, pixel_speed_event_immediate 4 2 32 127 5 3 initGlobals (by norm_num)⟩

/-- Helper: every controller event preserves `global_decay ≥ 1` (the only
write, parameter id 113, stores `value + 1`). -/
theorem controlEvent_decay_preserved (width height image_size param value r1 r2 : Nat)
    (g : Globals) (h : 1 ≤ g.global_decay) :
    1 ≤ (controlEvent width height image_size param value r1 r2 g).global_decay := by
  have h0 : (0 : ℚ) ≤ (value : ℚ) := Nat.cast_nonneg value
  unfold controlEvent
  split
  · exact h
  · exact h
  · exact h
  · show 1 ≤ (value : ℚ) + 1
    linarith
  · exact h

/-- Helper: the `≥ 1` invariant is preserved by any controller event list. -/
theorem applyControlEvents_decay_preserved (width height image_size : Nat) :
    ∀ (evs : List (Nat × Nat × Nat × Nat)) (g : Globals), 1 ≤ g.global_decay →
      1 ≤ (applyControlEvents width height image_size evs g).global_decay := by
  intro evs
  induction evs with
  | nil =>
    intro g h
    exact h
  | cons e rest ih =>
    intro g h
    simp only [applyControlEvents, List.foldl_cons]
    exact ih _ (controlEvent_decay_preserved width height image_size e.1 e.2.1 e.2.2.1 e.2.2.2 g h)

/-- Claim C9: the global decay constant starts at 3 (≥ 1); the only event
that writes it (parameter id 113) stores `value + 1`, so it stays ≥ 1 after
any sequence of controller events, and every division in the decay step is by
a value ≥ 1. -/
theorem global_decay_ge_one (width height image_size : Nat) :
    1 ≤ initGlobals.global_decay ∧
    (∀ (value r1 r2 : Nat) (g : Globals),
      (controlEvent width height image_size 113 value r1 r2 g).global_decay = (value : ℚ) + 1) ∧
    (∀ (param value r1 r2 : Nat) (g : Globals), 1 ≤ g.global_decay →
      1 ≤ (controlEvent width height image_size param value r1 r2 g).global_decay) ∧
    (∀ evs, 1 ≤ (applyControlEvents width height image_size evs initGlobals).global_decay) := by
  refine ⟨by norm_num [initGlobals], fun value r1 r2 g => rfl, ?_, ?_⟩
  · intro param value r1 r2 g h
    exact controlEvent_decay_preserved width height image_size param value r1 r2 g h
  · intro evs
    exact applyControlEvents_decay_preserved width height image_size evs initGlobals
      (by norm_num [initGlobals])

/-- Witness for C9: after an unrelated event (id 114) the decay constant of
the initial state is still ≥ 1. -/
theorem global_decay_ge_one_witness :
    1 ≤ initGlobals.global_decay ∧
    1 ≤ (controlEvent 0 0 0 114 5 0 0 initGlobals).global_decay :=
  ⟨(global_decay_ge_one 0 0 0).1,
    (global_decay_ge_one 0 0 0).2.2.1 114 5 0 0 initGlobals (by norm_num [initGlobals])⟩

/-- Claim C10: `trigger` with a light index at or beyond `LEDS` is a total
silent no-op: in this embedding it never indexes the 8-entry light array and
returns the state of all eight lights unchanged. -/
theorem trigger_out_of_range (which velocity : Nat) (leds : Fin 8 → LedState)
    (hw : LEDS ≤ which) :
    trigger which velocity leds = leds := by
  unfold trigger
  rw [dif_neg (by omega)]

/-- Witness for C10 at index 128 (the index a phase-inverted map entry would
produce). -/
theorem trigger_out_of_range_witness :
    LEDS ≤ 128 ∧ trigger 128 100 led_map = led_map :=
  ⟨by decide, trigger_out_of_range 128 100 led_map (by decide)⟩
